import Mathlib

/-
Verification of the q-point / perturbation workflow layer of abipy
(abipy/data/runs/qptdm_workflow.py).

The Python module is shallowly embedded: each Python string is a list of
characters (a file is a list of lines, each line keeping its trailing
newline, as Python file iteration yields them); fallible Python code is
modelled in the exception monad `Except PyError`; the opaque input
configurations (AbiInput objects of the external pymatgen package) are
modelled as key/value maps cloned on mutation, exactly how the code uses
them (deepcopy followed by set_variables).  External collaborators
(the ABINIT binary, the filesystem, mrgscr) enter only through their
observable results: the probe run is a parameter carrying the text of the
log file it produced, and the mrgscr merge is counted as an event.
-/

namespace QptdmRuns

/-- A Python string, modelled as its list of characters. -/
abbrev Line := List Char

/-- Python `line.startswith(pre)`. -/
def pyStartsWith (l pre : Line) : Bool := pre.isPrefixOf l

/-- Python `sub in s`: substring containment, by scanning every suffix. -/
def pyIn : Line → Line → Bool
  | sub, [] => sub.isPrefixOf []
  | sub, c :: rest => sub.isPrefixOf (c :: rest) || pyIn sub rest

/-- Python `"".join(lines)`. -/
def joinL (ls : List Line) : Line := ls.flatten

/-- The document-open sentinel `---`. -/
def dashes : Line := "---".data

/-- The document-close sentinel `...`. -/
def dots : Line := "...".data

/-- Kinds of Python exceptions that the embedded code can raise, plus the
two error kinds named by the specification (`malformedSection`,
`malformedProbeOutput`), which no function of the source module ever
constructs. -/
inductive PyError where
  | typeError
  | attributeError
  | assertionError
  | unboundLocalError
  | stopIteration
  | keyError
  | indexError
  | constructorError
  | malformedSection
  | malformedProbeOutput
deriving DecidableEq, Repr

/-! ## next_yaml_doc (qptdm_workflow.py lines 408-430) -/

/-- The `for line in stream` loop of `next_yaml_doc`: `in_doc` is set once a
line starts with the document tag, lines are collected while `in_doc`, and
the loop breaks after a line starting with `...`.  Returns the collected
lines and the lines remaining in the stream after the loop. -/
def nydLoop (docTag : Line) : Bool → List Line → List Line → List Line × List Line
  | _, acc, [] => (acc, [])
  | inDoc, acc, l :: rest =>
    let inDoc := inDoc || pyStartsWith l docTag
    let acc := if inDoc then acc ++ [l] else acc
    if inDoc && pyStartsWith l dots then (acc, rest)
    else nydLoop docTag inDoc acc rest

/-- Python `next_yaml_doc(stream, doc_tag="---")`: returns the joined
collected lines, or raises `StopIteration` when no line was collected.
Also returns the not-yet-consumed tail of the stream (the read cursor). -/
def nextYamlDoc (docTag : Line) (stream : List Line) :
    Except PyError (Line × List Line) :=
  let r := nydLoop docTag false [] stream
  if r.1.isEmpty then .error .stopIteration else .ok (joinL r.1, r.2)

/-! ## YamlFileReader.next_doc_with_tag (lines 348-357) -/

/-- The `for doc in self` loop of `next_doc_with_tag`, fuelled by the number
of remaining lines (each successful `next` consumes at least one line).
`StopIteration` is absorbed by the for-loop, whose else-branch returns the
empty string; any other exception would propagate. -/
def ndwtAux (docTag : Line) : Nat → List Line → Option (Except PyError Line)
  | 0, _ => none
  | fuel + 1, stream =>
    match nextYamlDoc dashes stream with
    | .error .stopIteration => some (.ok [])
    | .error e => some (.error e)
    | .ok (doc, rest) =>
      if pyIn docTag doc then some (.ok doc) else ndwtAux docTag fuel rest

/-- Python `YamlFileReader.next_doc_with_tag(doc_tag)`: the first document
containing `doc_tag`, or the empty string when the stream is exhausted. -/
def nextDocWithTag (docTag : Line) (stream : List Line) : Except PyError Line :=
  (ndwtAux docTag (stream.length + 1) stream).getD (.error .stopIteration)

/-- The documents an exhausted reader would yield: `DocOf s d` holds when
repeatedly calling `next_yaml_doc` on `s` eventually returns `d`. -/
inductive DocOf : List Line → Line → Prop where
  | head {s d rest} : nextYamlDoc dashes s = .ok (d, rest) → DocOf s d
  | tail {s d rest d'} : nextYamlDoc dashes s = .ok (d, rest) → DocOf rest d' →
      DocOf s d'

/-! ## all_yaml_docs (lines 379-405) -/

/-- The `for line in stream` loop of `all_yaml_docs`.  The local `doc` is
only assigned once a line starting with `---` is seen, so it is modelled as
an `Option`: `none` means not yet bound.  Returns the accumulated `docs`
together with the final state of `doc`. -/
def aydLoop : List Line → List Line → Option (List Line) → Bool →
    List Line × Option (List Line)
  | [], docs, doc?, _ => (docs, doc?)
  | l :: rest, docs, doc?, inDoc =>
    let st := if pyStartsWith l dashes then (some ([] : List Line), true)
              else (doc?, inDoc)
    let doc? := if st.2 then some (st.1.getD [] ++ [l]) else st.1
    if st.2 && pyStartsWith l dots then
      aydLoop rest (docs ++ [joinL (doc?.getD [])]) (some []) false
    else
      aydLoop rest docs doc? st.2

/-- Python `all_yaml_docs(stream)`.  After the loop the code evaluates
`if doc:`; when no `---` line was ever seen, `doc` was never assigned and
this reference raises `UnboundLocalError`.  Otherwise a trailing unclosed
document is appended. -/
def allYamlDocs (stream : List Line) : Except PyError (List Line) :=
  match aydLoop stream [] none false with
  | (_, none) => .error .unboundLocalError
  | (docs, some d) => .ok (if d.isEmpty then docs else docs ++ [joinL d])

/-! ## YamlFileReader.all_docs_with_tag (lines 359-376) -/

/-- The attributes defined by class `YamlFileReader`. -/
def yamlFileReaderAttrs : List Line :=
  ["Error".data, "__init__".data, "__iter__".data, "__enter__".data,
   "__exit__".data, "__del__".data, "close".data, "seek".data,
   "all_yaml_docs".data, "__next__".data, "next".data,
   "next_doc_with_tag".data, "all_docs_with_tag".data]

/-- Python `YamlFileReader.all_docs_with_tag(doc_tag)`: initialises
`docs = []`, then its first loop iteration evaluates
`self.next_doc_with(doc_tag)`.  The attribute lookup `next_doc_with`
precedes the call; `YamlFileReader` defines no such attribute, so
`AttributeError` is raised (and the `except StopIteration()` clause does
not match it). -/
def allDocsWithTag (docTag : Line) (stream : List Line) :
    Except PyError (List Line) :=
  let docs : List Line := []
  if "next_doc_with".data ∈ yamlFileReaderAttrs then
    .ok (docs ++ [(nextDocWithTag docTag stream).toOption.getD []])
  else
    .error .attributeError

/-! ## Python/YAML values and input configurations -/

/-- Python values flowing through the module: YAML scalars are kept as
their literal tokens (the code never computes with them, it only copies
them into input configurations). -/
inductive PyVal where
  | none
  | str (s : Line)
  | int (n : Int)
  | list (elts : List PyVal)
  | dict (entries : List (Line × PyVal))

/-- An input configuration (pymatgen AbiInput / strategy): an opaque
key/value store.  `deepcopy` of a pure map is the map itself. -/
abbrev Config := Line → Option PyVal

/-- One keyword of `set_variables` / `add_extra_abivars`: overwrite or add. -/
def setVar (cfg : Config) (k : Line) (v : PyVal) : Config :=
  fun k' => if k' = k then some v else cfg k'

/-- Python `input.set_variables(k1=v1, ..., kn=vn)`. -/
def setVariables (cfg : Config) (kvs : List (Line × PyVal)) : Config :=
  kvs.foldl (fun c kv => setVar c kv.1 kv.2) cfg

/-! ## A model of yaml.load on the probe-log documents

The module hands the extracted document text to PyYAML.  Only the shapes
occurring in probe logs are in play: an optionally tagged mapping whose
values are flow-style (bracketed) lists, and the empty document, which
PyYAML loads as `None`.  The model parses exactly that subset (the tag is
treated as transparent, yielding the underlying mapping). -/

/-- Split a text into lines at newline characters (the inverse of the join
performed by the reader). -/
def splitOnNl : Line → List Line
  | [] => [[]]
  | c :: rest =>
    if c = '\n' then [] :: splitOnNl rest
    else
      match splitOnNl rest with
      | [] => [[c]]
      | l :: ls => (c :: l) :: ls

/-- Drop leading and trailing blanks. -/
def trimL (l : Line) : Line :=
  ((l.dropWhile (fun c => c = ' ')).reverse.dropWhile (fun c => c = ' ')).reverse

/-- Split a flow-list body at top-level commas (bracket-depth zero). -/
def splitTop : Nat → Line → Line → List Line
  | _, acc, [] => [acc.reverse]
  | depth, acc, c :: rest =>
    if c = ',' ∧ depth = 0 then acc.reverse :: splitTop 0 [] rest
    else
      splitTop (if c = '[' then depth + 1
                else if c = ']' then depth - 1 else depth) (c :: acc) rest

/-- Parse a flow-style YAML value: a bracketed list of values, or a scalar
kept as its token. -/
def parseFlow : Nat → Line → PyVal
  | 0, s => .str (trimL s)
  | fuel + 1, s =>
    let s := trimL s
    match s with
    | '[' :: rest =>
      if rest.getLast? = some ']' then
        let inner := rest.dropLast
        if (trimL inner).isEmpty then .list []
        else .list ((splitTop 0 [] inner).map (parseFlow fuel))
      else .str s
    | _ => .str s

/-- Parse one `key: value` mapping line; lines without a colon are not
mapping entries. -/
def parseEntry (fuel : Nat) (l : Line) : Option (Line × PyVal) :=
  let k := l.takeWhile (fun c => c ≠ ':')
  if k.length = l.length then none
  else some (trimL k, parseFlow fuel (l.drop (k.length + 1)))

/-- Model of `yaml.load(doc)` on probe-log documents.  Stock PyYAML first
resolves the document node's tag: an application tag such as `!Kpoints`
on the `---` line has no registered constructor (this repository calls
no `add_constructor` and defines no `yaml_tag`; the tag-stripping line
in `yaml_read_kpoints` is commented out), so construction raises
`ConstructorError`.  For untagged documents the sentinel lines are
delimiters, the remaining `key: value` lines form a mapping, and a
document with no content loads as `None`. -/
def pyYamlLoad (doc : Line) : Except PyError PyVal :=
  let lines := splitOnNl doc
  if lines.any (fun l => pyStartsWith l dashes && pyIn ['!'] l) then
    .error .constructorError
  else
    let ls := lines.filter
      (fun l => !(pyStartsWith l dashes) && !(pyStartsWith l dots))
    let entries := ls.filterMap (parseEntry doc.length)
    if entries.isEmpty then .ok .none else .ok (.dict entries)

/-- Python `d[key]`: mapping lookup; subscripting `None` (or any
non-container) raises `TypeError`, a missing key raises `KeyError`. -/
def pySubscript (v : PyVal) (key : Line) : Except PyError PyVal :=
  match v with
  | .dict entries =>
    match entries.find? (fun kv => kv.1 == key) with
    | some kv => .ok kv.2
    | none => .error .keyError
  | .none => .error .typeError
  | _ => .error .typeError

/-- Model of `np.array` on the parsed q-point payload followed by the
iteration the caller performs: the elements of a sequence payload
(non-sequence payloads do not arise in probe logs). -/
def npArrayList : PyVal → Except PyError (List PyVal)
  | .list elts => .ok elts
  | _ => .error .typeError

/-! ## yaml_read_kpoints / yaml_read_irred_perts (lines 433-452) -/

/-- The default document tag of `yaml_read_kpoints`. -/
def kpointsTag : Line := "!Kpoints".data

/-- The key holding the q-point list in a probe document. -/
def rcoqKey : Line := "reduced_coordinates_of_qpoints".data

/-- Python `yaml_read_kpoints(filename, doc_tag)`, the file given by its
lines. -/
def yamlReadKpoints (log : List Line) (docTag : Line) :
    Except PyError (List PyVal) := do
  let doc ← nextDocWithTag docTag log
  let d ← pyYamlLoad doc
  let v ← pySubscript d rcoqKey
  npArrayList v

/-- The key holding the perturbation list in a probe document. -/
def irredPertsKey : Line := "irred_perts".data

/-- The default document tag of `yaml_read_irred_perts`. -/
def irredPertsTag : Line := "!IrredPerts".data

/-- Python `yaml_read_irred_perts(filename, doc_tag)`. -/
def yamlReadIrredPerts (log : List Line) (docTag : Line) :
    Except PyError PyVal := do
  let doc ← nextDocWithTag docTag log
  let d ← pyYamlLoad doc
  pySubscript d irredPertsKey

/-! ## QptdmWorkflow.fill (lines 25-71) -/

/-- A workflow: the ordered list of registered task input configurations. -/
structure Workflow where
  tasks : List Config

/-- Steps `fill` performs, in program order. -/
inductive FillEv where
  | probeBuild
  | probeStart
  | parseLog
  | registerTask (cfg : Config)

/-- The parameter names of `yaml_read_kpoints(filename, doc_tag="!Kpoints")`. -/
def yamlReadKpointsParams : List Line := ["filename".data, "doc_tag".data]

/-- The variable names set on each registered screening input. -/
def nqptdmKey : Line := "nqptdm".data

/-- The q-point variable name set on each registered screening input. -/
def qptdmKey : Line := "qptdm".data

/-- The tag `fill` asks `yaml_read_kpoints` for. -/
def qptdmScanTag : Line := "--- !Qptdms".data

/-- Python `QptdmWorkflow.fill(wfk_file, scr_input)`.  The probe run is
external; `probeLog` is the text ABINIT left in the fake task's log file.
The code first asserts the workflow is empty, builds and starts the
temporary probe workflow, then calls
`yaml_read_kpoints(path, tag="--- !Qptdms")`; `tag` is not among the
parameters of `yaml_read_kpoints`, so Python raises `TypeError` at that
call.  Were the call to return, one task per q-point would be registered,
the screening template deep-copied with `nqptdm=1` and `qptdm=qpoint`
overlaid.  Returns the events performed and the outcome (`allocate` is an
external no-op on the task list). -/
def fill (wf : Workflow) (scrInput : Config) (probeLog : List Line) :
    List FillEv × Except PyError Workflow :=
  if wf.tasks.isEmpty then
    let evs := [FillEv.probeBuild, FillEv.probeStart, FillEv.parseLog]
    if "tag".data ∈ yamlReadKpointsParams then
      match yamlReadKpoints probeLog qptdmScanTag with
      | .error e => (evs, .error e)
      | .ok qpoints =>
        let newTasks := qpoints.map fun q =>
          setVariables scrInput [(nqptdmKey, PyVal.int 1), (qptdmKey, q)]
        (evs ++ newTasks.map FillEv.registerTask,
         .ok { tasks := wf.tasks ++ newTasks })
    else (evs, .error .typeError)
  else ([], .error .assertionError)

/-! ## QptdmWorkflow.merge_scrfiles / on_all_ok (lines 73-101) -/

/-- The state `on_all_ok` sees: per registered task, the path of its SCR
output if `task.outdir.has_abiext("SCR")` finds one, and the finalized
flag maintained by the external Flow. -/
structure QptdmState where
  scrFiles : List (Option Line)
  finalized : Bool

/-- The result dictionary `on_all_ok` returns. -/
structure MergeResults where
  returncode : Int
  message : Line
  finalScr : PyVal

/-- Python `QptdmWorkflow.merge_scrfiles`: filters out the tasks with no
SCR file, asserts none was missing, then runs the external `mrgscr` merge.
The method has no return statement, so the caller receives `None`. -/
def mergeScrfiles (st : QptdmState) : Except PyError (List Line) :=
  let scrFiles := st.scrFiles.filterMap id
  if scrFiles.length = st.scrFiles.length then .ok scrFiles
  else .error .assertionError

/-- Python `QptdmWorkflow.on_all_ok`: calls `merge_scrfiles` (there is no
check of the finalized flag anywhere in the method) and wraps the results
dictionary.  The first component counts the external `mrgscr` merge
invocations this call performed. -/
def onAllOk (st : QptdmState) : Nat × Except PyError MergeResults :=
  match mergeScrfiles st with
  | .error e => (0, .error e)
  | .ok _ =>
    (1, .ok { returncode := 0, message := "mrgscr done".data,
              finalScr := PyVal.none })

/-! ## phonon_flow (lines 104-191) -/

/-- One irreducible-perturbation record parsed from a probe log. -/
structure IrredPert where
  idir : Int
  ipert : Int
  qpt : PyVal

/-- The task classes `phonon_flow` registers tasks with. -/
inductive TaskClass where
  | scfTask
  | phononTask
deriving DecidableEq

/-- A reference to an already-registered task (the SCF task of the flow). -/
abbrev TaskRef := Nat

/-- A task registered in a phonon workflow: its input configuration, its
declared dependencies (producer, artifact kind) and its task class. -/
structure PhTask where
  input : Config
  deps : List (TaskRef × Line)
  taskClass : TaskClass

/-- Python list item assignment `l[i] = v` with Python's negative-index
rule; out-of-range indices raise `IndexError`. -/
def pyListSet (l : List Int) (i : Int) (v : Int) : Except PyError (List Int) :=
  let n : Int := l.length
  let j := if i < 0 then i + n else i
  if 0 ≤ j ∧ j < n then .ok (l.set j.toNat v) else .error .indexError

/-- Variable name for the single q-point of a phonon task. -/
def qptKey : Line := "qpt".data

/-- Variable name for the displacement direction vector. -/
def rfdirKey : Line := "rfdir".data

/-- Variable name for the displaced-atom range. -/
def rfatpolKey : Line := "rfatpol".data

/-- The artifact kind each phonon task depends on from the SCF task. -/
def wfkKind : Line := "WFK".data

/-- The body of the `for irred_pert in irred_perts` loop of `phonon_flow`:
deep-copy the phonon template, build `rfdir = 3*[0]; rfdir[idir-1] = 1`
and `rfatpol = [ipert, ipert]`, overlay the three variables, and register
the result as a `PhononTask` depending on the SCF task's WFK file. -/
def buildPhononTask (phInput : Config) (scfTask : TaskRef) (p : IrredPert) :
    Except PyError PhTask := do
  let rfdir ← pyListSet [0, 0, 0] (p.idir - 1) 1
  let input := setVariables phInput
    [(qptKey, p.qpt),
     (rfdirKey, PyVal.list (rfdir.map PyVal.int)),
     (rfatpolKey, PyVal.list [PyVal.int p.ipert, PyVal.int p.ipert])]
  .ok { input := input, deps := [(scfTask, wfkKind)],
        taskClass := TaskClass.phononTask }

/-- The tasks `phonon_flow` registers in the per-q-point `PhononWorkflow`
for the discovered records, in discovery order. -/
def phononWorkForQpt (phInput : Config) (scfTask : TaskRef)
    (irredPerts : List IrredPert) : Except PyError (List PhTask) :=
  irredPerts.mapM (buildPhononTask phInput scfTask)

/-- The displacement vector the claim describes: 1 in (one-based)
component `idir`, 0 elsewhere. -/
def rfdirList (idir : Int) : List Int :=
  if idir = 1 then [1, 0, 0] else if idir = 2 then [0, 1, 0] else [0, 0, 1]

/-- Texts whose embedded documents are all well-formed open/close pairs, as
the specification describes them: lines outside documents never start with
the open sentinel, each document is an opening `---` line, body lines
starting with neither sentinel, and a closing `...` line.  `WFDocs s ds`
relates such a text to its list of documents (each a list of lines). -/
inductive WFDocs : List Line → List (List Line) → Prop where
  | nil : WFDocs [] []
  | junk {l : Line} {s : List Line} {ds : List (List Line)} :
      pyStartsWith l dashes = false → WFDocs s ds → WFDocs (l :: s) ds
  | doc {o : Line} {body : List Line} {c : Line} {s : List Line}
      {ds : List (List Line)} :
      pyStartsWith o dashes = true →
      (∀ b ∈ body, pyStartsWith b dashes = false ∧ pyStartsWith b dots = false) →
      pyStartsWith c dots = true →
      WFDocs s ds →
      WFDocs (o :: (body ++ c :: s)) ((o :: (body ++ [c])) :: ds)

/-- The task `buildPhononTask` produces for an in-range record: the
template with exactly the three perturbation variables overlaid, a WFK
dependency on the SCF task, and class `PhononTask`. -/
def phononTaskOf (tmpl : Config) (scf : TaskRef) (p : IrredPert) : PhTask :=
  { input := setVariables tmpl
      [(qptKey, p.qpt),
       (rfdirKey, PyVal.list ((rfdirList p.idir).map PyVal.int)),
       (rfatpolKey, PyVal.list [PyVal.int p.ipert, PyVal.int p.ipert])],
    deps := [(scf, wfkKind)], taskClass := TaskClass.phononTask }

/-- An empty input configuration, used by concrete instantiations. -/
def emptyCfg : Config := fun _ => Option.none

/-- A one-record perturbation list, used by concrete instantiations. -/
def samplePerts : List IrredPert :=
  [{ idir := 1, ipert := 2, qpt := PyVal.str "q".data }]

/-! ## Helper lemmas: the string model -/

lemma dashes_chars : dashes = ['-', '-', '-'] := rfl

lemma dots_chars : dots = ['.', '.', '.'] := rfl

lemma pyIn_nil_sub (l : Line) : pyIn [] l = true := by
  induction l with
  | nil => rfl
  | cons c cs ih => simp [pyIn, List.isPrefixOf]

lemma pyIn_append_right {sub l₁ : Line} (l₂ : Line) (h : pyIn sub l₁ = true) :
    pyIn sub (l₁ ++ l₂) = true := by
  induction l₁ with
  | nil =>
    cases sub with
    | nil => simpa using pyIn_nil_sub l₂
    | cons a as => simp [pyIn, List.isPrefixOf] at h
  | cons c cs ih =>
    simp only [pyIn, Bool.or_eq_true] at h
    rcases h with h | h
    · have hp : sub <+: (c :: cs) := List.isPrefixOf_iff_prefix.mp h
      have hp2 : sub <+: (c :: cs) ++ l₂ := hp.trans (List.prefix_append _ _)
      have := List.isPrefixOf_iff_prefix.mpr hp2
      simp only [List.cons_append] at this
      simp [pyIn, this]
    · simp [pyIn, ih h]

lemma not_dots_of_dashes {l : Line} (h : pyStartsWith l dashes = true) :
    pyStartsWith l dots = false := by
  cases l with
  | nil => simp [pyStartsWith, dashes_chars, List.isPrefixOf] at h
  | cons c cs =>
    simp only [pyStartsWith, dashes_chars, dots_chars, List.isPrefixOf,
      Bool.and_eq_true, beq_iff_eq] at h ⊢
    rcases h with ⟨hc, -⟩
    subst hc
    simp

lemma not_dashes_of_dots {l : Line} (h : pyStartsWith l dots = true) :
    pyStartsWith l dashes = false := by
  cases l with
  | nil => simp [pyStartsWith, dots_chars, List.isPrefixOf] at h
  | cons c cs =>
    simp only [pyStartsWith, dashes_chars, dots_chars, List.isPrefixOf,
      Bool.and_eq_true, beq_iff_eq] at h ⊢
    rcases h with ⟨hc, -⟩
    subst hc
    simp

/-! ## Helper lemmas: next_yaml_doc -/

lemma nydLoop_junk {l : Line} (s : List Line) (acc : List Line)
    (h : pyStartsWith l dashes = false) :
    nydLoop dashes false acc (l :: s) = nydLoop dashes false acc s := by
  simp [nydLoop, h]

lemma nydLoop_nodots {s : List Line} (h : ∀ l ∈ s, pyStartsWith l dots = false) :
    ∀ acc, nydLoop dashes true acc s = (acc ++ s, []) := by
  induction s with
  | nil => intro acc; simp [nydLoop]
  | cons l s' ih =>
    intro acc
    have hl := h l (by simp)
    have hrest : ∀ x ∈ s', pyStartsWith x dots = false := fun x hx => h x (by simp [hx])
    simp [nydLoop, hl, ih hrest]

lemma nydLoop_body {body : List Line} {c : Line}
    (hbody : ∀ b ∈ body, pyStartsWith b dots = false)
    (hc : pyStartsWith c dots = true) (s : List Line) :
    ∀ acc, nydLoop dashes true acc (body ++ c :: s) = (acc ++ body ++ [c], s) := by
  induction body with
  | nil => intro acc; simp [nydLoop, hc]
  | cons b bs ih =>
    intro acc
    have hb := hbody b (by simp)
    have hrest : ∀ x ∈ bs, pyStartsWith x dots = false :=
      fun x hx => hbody x (by simp [hx])
    simp [nydLoop, hb, ih hrest]

lemma nydLoop_rest_le (t : Line) :
    ∀ (s : List Line) (b : Bool) (acc : List Line),
      (nydLoop t b acc s).2.length ≤ s.length := by
  intro s
  induction s with
  | nil => intro b acc; simp [nydLoop]
  | cons l s' ih =>
    intro b acc
    simp only [nydLoop]
    split
    · exact Nat.le_succ_of_le (Nat.le_refl _)
    · exact Nat.le_succ_of_le (ih _ _)

lemma nextYamlDoc_nil (t : Line) : nextYamlDoc t [] = .error .stopIteration := rfl

lemma nextYamlDoc_error_eq {t : Line} {s : List Line} {e : PyError}
    (h : nextYamlDoc t s = .error e) : e = .stopIteration := by
  simp only [nextYamlDoc] at h
  split at h
  · exact (Except.error.inj h).symm
  · simp at h

lemma nextYamlDoc_rest_lt {t : Line} {s : List Line} {d : Line} {rest : List Line}
    (h : nextYamlDoc t s = .ok (d, rest)) : rest.length < s.length := by
  cases s with
  | nil => simp [nextYamlDoc, nydLoop] at h
  | cons l s' =>
    have key : (nydLoop t false [] (l :: s')).2.length < (l :: s').length := by
      simp only [nydLoop]
      split
      · exact Nat.lt_succ_of_le (Nat.le_refl _)
      · exact Nat.lt_succ_of_le (nydLoop_rest_le _ _ _ _)
    simp only [nextYamlDoc] at h
    split at h
    · simp at h
    · have h2 := Except.ok.inj h
      have h3 : rest = (nydLoop t false [] (l :: s')).2 := by
        have := congrArg Prod.snd h2
        simpa using this.symm
      rw [h3]
      exact key

/-! ## Helper lemmas: next_doc_with_tag -/

lemma ndwtAux_fuel_irrel {tag : Line} {f₁ f₂ : Nat} {s : List Line}
    (h₁ : s.length < f₁) (h₂ : s.length < f₂) :
    ndwtAux tag f₁ s = ndwtAux tag f₂ s := by
  induction f₁ generalizing f₂ s with
  | zero => omega
  | succ f ih =>
    cases f₂ with
    | zero => omega
    | succ g =>
      simp only [ndwtAux]
      cases hnyd : nextYamlDoc dashes s with
      | error e => cases e <;> rfl
      | ok p =>
        obtain ⟨doc, rest⟩ := p
        by_cases hin : pyIn tag doc = true
        · simp [hin]
        · have hlt := nextYamlDoc_rest_lt hnyd
          simp only [hin, Bool.false_eq_true, if_false]
          exact ih (by omega) (by omega)

lemma nextDocWithTag_eq_aux {tag : Line} {s : List Line} {fuel : Nat}
    (h : s.length < fuel) :
    nextDocWithTag tag s = (ndwtAux tag fuel s).getD (.error .stopIteration) := by
  rw [nextDocWithTag, ndwtAux_fuel_irrel (Nat.lt_succ_of_le (Nat.le_refl _)) h]

lemma ndwtAux_no_tag {tag : Line} {fuel : Nat} {s : List Line}
    (hall : ∀ d, DocOf s d → pyIn tag d = false) (h : s.length < fuel) :
    ndwtAux tag fuel s = some (.ok []) := by
  induction fuel generalizing s with
  | zero => omega
  | succ f ih =>
    simp only [ndwtAux]
    cases hnyd : nextYamlDoc dashes s with
    | error e =>
      have he := nextYamlDoc_error_eq hnyd
      subst he
      rfl
    | ok p =>
      obtain ⟨doc, rest⟩ := p
      have hdoc : pyIn tag doc = false := hall doc (DocOf.head hnyd)
      have hrest : ∀ d, DocOf rest d → pyIn tag d = false :=
        fun d hd => hall d (DocOf.tail hnyd hd)
      have hlt : rest.length < f :=
        lt_of_lt_of_le (nextYamlDoc_rest_lt hnyd) (Nat.lt_succ_iff.mp h)
      simp [hdoc, ih hrest hlt]

lemma nextDocWithTag_no_tag {tag : Line} {s : List Line}
    (hall : ∀ d, DocOf s d → pyIn tag d = false) :
    nextDocWithTag tag s = .ok [] := by
  rw [nextDocWithTag,
    ndwtAux_no_tag hall (Nat.lt_succ_of_le (Nat.le_refl _))]
  rfl

/-! ## Helper lemmas: well-formed texts -/

lemma nydLoop_wf_nil {s : List Line} {ds : List (List Line)}
    (h : WFDocs s ds) (hds : ds = []) :
    ∀ acc, nydLoop dashes false acc s = (acc, []) := by
  induction h with
  | nil => intro acc; rfl
  | junk hl hs ih =>
    intro acc
    rw [nydLoop_junk _ _ hl]
    exact ih hds acc
  | doc ho hbody hc hs ih => cases hds

lemma nextYamlDoc_wf_nil {s : List Line} (h : WFDocs s []) :
    nextYamlDoc dashes s = .error .stopIteration := by
  simp [nextYamlDoc, nydLoop_wf_nil h rfl []]

lemma nextYamlDoc_wf_cons {s : List Line} {ds : List (List Line)}
    (h : WFDocs s ds) :
    ∀ {d : List Line} {ds' : List (List Line)}, ds = d :: ds' →
      ∃ rest, nextYamlDoc dashes s = .ok (joinL d, rest) ∧ WFDocs rest ds' ∧
        rest.length < s.length := by
  induction h with
  | nil => intro d ds' hds; cases hds
  | junk hl hs ih =>
    intro d ds' hds
    obtain ⟨rest, h1, h2, h3⟩ := ih hds
    refine ⟨rest, ?_, h2, Nat.lt_succ_of_lt h3⟩
    simp only [nextYamlDoc] at h1
    simp only [nextYamlDoc, nydLoop_junk _ _ hl]
    exact h1
  | doc ho hbody hc hs ih =>
    rename_i o body c s0 ds0
    intro d ds' hds
    injection hds with hd hds'
    subst hd
    subst hds'
    have hbd : ∀ b ∈ body, pyStartsWith b dots = false :=
      fun b hb => (hbody b hb).2
    have hstep : nydLoop dashes false [] (o :: (body ++ c :: s0)) =
        ([o] ++ body ++ [c], s0) := by
      simp [nydLoop, ho, not_dots_of_dashes ho, nydLoop_body hbd hc]
    refine ⟨s0, ?_, hs, ?_⟩
    · simp [nextYamlDoc, hstep, joinL]
    · simp only [List.length_cons, List.length_append]
      omega

lemma aydLoop_junk {l : Line} (s : List Line) (docs : List Line)
    (doc? : Option (List Line)) (h : pyStartsWith l dashes = false) :
    aydLoop (l :: s) docs doc? false = aydLoop s docs doc? false := by
  simp [aydLoop, h]

lemma aydLoop_body {body : List Line} {c : Line}
    (hbody : ∀ b ∈ body, pyStartsWith b dashes = false ∧ pyStartsWith b dots = false)
    (hc : pyStartsWith c dots = true) (s : List Line) :
    ∀ docs acc, aydLoop (body ++ c :: s) docs (some acc) true =
      aydLoop s (docs ++ [joinL (acc ++ body ++ [c])]) (some []) false := by
  induction body with
  | nil =>
    intro docs acc
    simp [aydLoop, not_dashes_of_dots hc, hc]
  | cons b bs ih =>
    intro docs acc
    obtain ⟨hbd, hbt⟩ := hbody b (by simp)
    have hrest : ∀ x ∈ bs, pyStartsWith x dashes = false ∧ pyStartsWith x dots = false :=
      fun x hx => hbody x (by simp [hx])
    simp [aydLoop, hbd, hbt, ih hrest]

lemma aydLoop_wf {s : List Line} {ds : List (List Line)} (h : WFDocs s ds) :
    ∀ docs doc?, aydLoop s docs doc? false =
      (docs ++ ds.map joinL, if ds.isEmpty then doc? else some []) := by
  induction h with
  | nil => intro docs doc?; simp [aydLoop]
  | junk hl hs ih =>
    intro docs doc?
    rw [aydLoop_junk _ _ _ hl]
    exact ih docs doc?
  | doc ho hbody hc hs ih =>
    rename_i o body c s0 ds0
    intro docs doc?
    have hstep : aydLoop (o :: (body ++ c :: s0)) docs doc? false =
        aydLoop (body ++ c :: s0) docs (some [o]) true := by
      simp [aydLoop, ho, not_dots_of_dashes ho]
    rw [hstep, aydLoop_body hbody hc _ _ _, ih]
    cases ds0 <;> simp [joinL]

lemma allYamlDocs_wf {s : List Line} {ds : List (List Line)}
    (h : WFDocs s ds) (hne : ds ≠ []) :
    allYamlDocs s = .ok (ds.map joinL) := by
  obtain ⟨d, ds', rfl⟩ : ∃ d ds', ds = d :: ds' := by
    cases ds with
    | nil => exact absurd rfl hne
    | cons d ds' => exact ⟨d, ds', rfl⟩
  simp [allYamlDocs, aydLoop_wf h [] none]

lemma ndwtAux_wf {tag : Line} {fuel : Nat} {s : List Line}
    {ds : List (List Line)} (h : WFDocs s ds) (hfuel : s.length < fuel) :
    ndwtAux tag fuel s =
      some (match ds.find? (fun d => pyIn tag (joinL d)) with
            | some d => .ok (joinL d)
            | none => .ok []) := by
  induction ds generalizing s fuel with
  | nil =>
    cases fuel with
    | zero => omega
    | succ f =>
      simp only [ndwtAux, nextYamlDoc_wf_nil h]
      rfl
  | cons d ds' ih =>
    obtain ⟨rest, h1, h2, h3⟩ := nextYamlDoc_wf_cons h rfl
    cases fuel with
    | zero => omega
    | succ f =>
      simp only [ndwtAux, h1]
      by_cases hin : pyIn tag (joinL d) = true
      · simp [hin]
      · have hlt : rest.length < f :=
          lt_of_lt_of_le h3 (Nat.lt_succ_iff.mp hfuel)
        simp [hin, ih h2 hlt]

/-! ## Helper lemmas: lists and maps -/

lemma mapM_ok_of_forall {α β : Type} (f : α → Except PyError β) (g : α → β) :
    ∀ l : List α, (∀ a ∈ l, f a = .ok (g a)) → l.mapM f = .ok (l.map g) := by
  intro l
  induction l with
  | nil => intro _; rfl
  | cons a l ih =>
    intro h
    rw [List.mapM_cons, h a (by simp), ih (fun x hx => h x (by simp [hx]))]
    rfl

lemma filterMap_id_length {α : Type} :
    ∀ l : List (Option α), (∀ x ∈ l, x.isSome = true) →
      (l.filterMap id).length = l.length := by
  intro l
  induction l with
  | nil => intro _; rfl
  | cons x l ih =>
    intro h
    obtain ⟨a, rfl⟩ := Option.isSome_iff_exists.mp (h x (by simp))
    simp [List.filterMap_cons, ih (fun y hy => h y (by simp [hy]))]

lemma nydLoop_skip_junk {pre : List Line}
    (h : ∀ l ∈ pre, pyStartsWith l dashes = false) (s : List Line) :
    ∀ acc, nydLoop dashes false acc (pre ++ s) = nydLoop dashes false acc s := by
  induction pre with
  | nil => intro acc; rfl
  | cons p ps ih =>
    intro acc
    rw [List.cons_append, nydLoop_junk _ _ (h p (by simp))]
    exact ih (fun l hl => h l (by simp [hl])) acc

lemma buildPhononTask_ok (tmpl : Config) (scf : TaskRef) (p : IrredPert)
    (h1 : 1 ≤ p.idir) (h3 : p.idir ≤ 3) :
    buildPhononTask tmpl scf p = .ok (phononTaskOf tmpl scf p) := by
  have hcases : p.idir = 1 ∨ p.idir = 2 ∨ p.idir = 3 := by omega
  rcases hcases with h | h | h <;>
    simp [buildPhononTask, phononTaskOf, pyListSet, rfdirList, h] <;> rfl

/-! ## C1 -/

/-- C1: the claim says `QptdmWorkflow.fill` on an empty workflow registers
one task per q-point of the tagged probe document.  The code instead
always raises `TypeError`: `fill` calls
`yaml_read_kpoints(path, tag="--- !Qptdms")`, but the function's
parameters are `(filename, doc_tag)`, so the keyword `tag` is rejected at
the call, after the probe ran and before any task is registered. -/
theorem fill_always_raises_type_error (scrInput : Config) (probeLog : List Line) :
    (fill { tasks := [] } scrInput probeLog).2 = .error .typeError := by
  have hne : ¬("tag".data ∈ yamlReadKpointsParams) := by decide
  simp [fill, hne]

/-! ## C2 -/

/-- C2 counterexample: on a stream whose tagged `---` line is never
followed by a `...` line, `next_doc_with_tag` does not raise
`MalformedSection` as the claim states: it returns the unterminated
document text. -/
theorem next_doc_with_tag_unterminated_counterexample :
    nextDocWithTag "!T".data ["--- !T\n".data, "x\n".data] =
      .ok ("--- !T\nx\n".data) ∧
    nextDocWithTag "!T".data ["--- !T\n".data, "x\n".data] ≠
      .error .malformedSection := by
  have h1 : nextDocWithTag "!T".data ["--- !T\n".data, "x\n".data] =
      .ok ("--- !T\nx\n".data) := rfl
  refine ⟨h1, ?_⟩
  rw [h1]
  intro h
  exact Except.noConfusion h

/-- C2 amended: `next_doc_with_tag` raises no error in either situation.
When the first tagged `---` line is followed by no `...` line before
end-of-stream, it returns the document text up to end-of-stream; when the
stream contains no document containing the tag, it returns the empty
string. -/
theorem next_doc_with_tag_never_malformed_section (tag op : Line)
    (pre rest s : List Line)
    (hpre : ∀ l ∈ pre, pyStartsWith l dashes = false)
    (hop : pyStartsWith op dashes = true)
    (htag : pyIn tag op = true)
    (hrest : ∀ l ∈ rest, pyStartsWith l dots = false)
    (hs : ∀ d, DocOf s d → pyIn tag d = false) :
    nextDocWithTag tag (pre ++ op :: rest) = .ok (joinL (op :: rest)) ∧
    nextDocWithTag tag s = .ok [] := by
  have hstep : nydLoop dashes false [] (op :: rest) = (op :: rest, []) := by
    simp [nydLoop, hop, not_dots_of_dashes hop, nydLoop_nodots hrest]
  have hnyd : nextYamlDoc dashes (pre ++ op :: rest) =
      .ok (joinL (op :: rest), []) := by
    simp [nextYamlDoc, nydLoop_skip_junk hpre, hstep]
  have htag2 : pyIn tag (joinL (op :: rest)) = true := by
    have hj : joinL (op :: rest) = op ++ joinL rest := by simp [joinL]
    rw [hj]
    exact pyIn_append_right _ htag
  constructor
  · rw [nextDocWithTag]
    simp only [ndwtAux, hnyd, htag2, if_true]
    rfl
  · exact nextDocWithTag_no_tag hs

/-- C2 witness: the amended statement evaluated on a junk line followed by
an unterminated tagged document, and on a stream with no document. -/
theorem next_doc_with_tag_never_malformed_section_witness :
    nextDocWithTag "!T".data
        (["junk\n".data] ++ "--- !T\n".data :: ["x\n".data]) =
      .ok (joinL ("--- !T\n".data :: ["x\n".data])) ∧
    nextDocWithTag "!T".data ["no doc here\n".data] = .ok [] :=
  next_doc_with_tag_never_malformed_section "!T".data "--- !T\n".data
    ["junk\n".data] ["x\n".data] ["no doc here\n".data]
    (by decide) (by decide) (by decide) (by decide)
    (fun d hd => by
      have hn : nextYamlDoc dashes ["no doc here\n".data] =
          .error .stopIteration := rfl
      cases hd with
      | head h2 => rw [hn] at h2; exact Except.noConfusion h2
      | tail h2 hd2 => rw [hn] at h2; exact Except.noConfusion h2)

/-! ## C3 -/

/-- C3: `fill` registers no expansion task before the probe workflow was
built, started, and its log handed to the parser, and a second `fill` on a
workflow that already holds a task is rejected by the leading assertion
instead of registering anything. -/
theorem fill_probe_precedes_registration (wf : Workflow) (scrInput : Config)
    (probeLog : List Line) :
    (wf.tasks ≠ [] → fill wf scrInput probeLog = ([], .error .assertionError)) ∧
    (∀ i cfg,
      (fill wf scrInput probeLog).1[i]? = some (FillEv.registerTask cfg) →
      ∃ jb js jp : Nat, jb < i ∧ js < i ∧ jp < i ∧
        (fill wf scrInput probeLog).1[jb]? = some FillEv.probeBuild ∧
        (fill wf scrInput probeLog).1[js]? = some FillEv.probeStart ∧
        (fill wf scrInput probeLog).1[jp]? = some FillEv.parseLog) := by
  cases hwt : wf.tasks with
  | cons x xs =>
    have hf : fill wf scrInput probeLog = ([], .error .assertionError) := by
      simp [fill, hwt]
    refine ⟨fun _ => hf, ?_⟩
    intro i cfg h
    rw [hf] at h
    simp at h
  | nil =>
    have hne : ¬("tag".data ∈ yamlReadKpointsParams) := by decide
    have hf : fill wf scrInput probeLog =
        ([FillEv.probeBuild, FillEv.probeStart, FillEv.parseLog],
         .error .typeError) := by
      simp [fill, hwt, hne]
    refine ⟨fun hc => absurd rfl hc, ?_⟩
    intro i cfg h
    rw [hf] at h
    rcases i with _ | _ | _ | i <;> simp at h

/-- C3 witness: a second `fill` on an already-populated workflow is
rejected by the assertion, with no events performed. -/
theorem fill_probe_precedes_registration_witness :
    fill { tasks := [fun _ => Option.none] } (fun _ => Option.none) [] =
      ([], .error .assertionError) :=
  (fill_probe_precedes_registration _ _ _).1 (by simp)

/-! ## C4 -/

/-- C4: for every in-range irreducible-perturbation record, `phonon_flow`
registers exactly one task of class `PhononTask` whose input is the phonon
template overlaid only with `qpt` (the record's q-vector), `rfdir` (1 in
one-based component `idir`, 0 elsewhere) and `rfatpol = [ipert, ipert]`,
and which declares a WFK dependency on the SCF task. -/
theorem phonon_flow_one_task_per_pert (tmpl : Config) (scf : TaskRef)
    (perts : List IrredPert)
    (h : ∀ p ∈ perts, 1 ≤ p.idir ∧ p.idir ≤ 3) :
    ∃ tasks, phononWorkForQpt tmpl scf perts = .ok tasks ∧
      tasks.length = perts.length ∧
      ∀ i, (hi : i < perts.length) →
        ∃ hti : i < tasks.length,
          (tasks.get ⟨i, hti⟩).taskClass = TaskClass.phononTask ∧
          (tasks.get ⟨i, hti⟩).deps = [(scf, wfkKind)] ∧
          (tasks.get ⟨i, hti⟩).input qptKey = some (perts.get ⟨i, hi⟩).qpt ∧
          (tasks.get ⟨i, hti⟩).input rfdirKey =
            some (PyVal.list ((rfdirList (perts.get ⟨i, hi⟩).idir).map PyVal.int)) ∧
          (tasks.get ⟨i, hti⟩).input rfatpolKey =
            some (PyVal.list [PyVal.int (perts.get ⟨i, hi⟩).ipert,
                              PyVal.int (perts.get ⟨i, hi⟩).ipert]) ∧
          ∀ k, k ≠ qptKey → k ≠ rfdirKey → k ≠ rfatpolKey →
            (tasks.get ⟨i, hti⟩).input k = tmpl k := by
  refine ⟨perts.map (phononTaskOf tmpl scf), ?_, by simp, ?_⟩
  · exact mapM_ok_of_forall _ _ _
      (fun p hp => buildPhononTask_ok tmpl scf p (h p hp).1 (h p hp).2)
  · intro i hi
    have hti : i < (perts.map (phononTaskOf tmpl scf)).length := by simpa using hi
    refine ⟨hti, ?_⟩
    have hget : (perts.map (phononTaskOf tmpl scf)).get ⟨i, hti⟩ =
        phononTaskOf tmpl scf (perts.get ⟨i, hi⟩) := by
      simp
    rw [hget]
    have hq1 : qptKey ≠ rfdirKey := by decide
    have hq2 : qptKey ≠ rfatpolKey := by decide
    have hq3 : rfdirKey ≠ rfatpolKey := by decide
    refine ⟨rfl, rfl, ?_, ?_, ?_, ?_⟩
    · simp [phononTaskOf, setVariables, setVar, hq1, hq2]
    · simp [phononTaskOf, setVariables, setVar, hq3]
    · simp [phononTaskOf, setVariables, setVar]
    · intro k hk1 hk2 hk3
      simp [phononTaskOf, setVariables, setVar, hk1, hk2, hk3]

/-- C4 witness: the theorem evaluated on a single record with
`idir = 1`, `ipert = 2`. -/
theorem phonon_flow_one_task_per_pert_witness :
    ∃ tasks, phononWorkForQpt emptyCfg 0 samplePerts = .ok tasks ∧
      tasks.length = samplePerts.length ∧
      ∀ i, (hi : i < samplePerts.length) →
        ∃ hti : i < tasks.length,
          (tasks.get ⟨i, hti⟩).taskClass = TaskClass.phononTask ∧
          (tasks.get ⟨i, hti⟩).deps = [(0, wfkKind)] ∧
          (tasks.get ⟨i, hti⟩).input qptKey =
            some (samplePerts.get ⟨i, hi⟩).qpt ∧
          (tasks.get ⟨i, hti⟩).input rfdirKey =
            some (PyVal.list
              ((rfdirList (samplePerts.get ⟨i, hi⟩).idir).map PyVal.int)) ∧
          (tasks.get ⟨i, hti⟩).input rfatpolKey =
            some (PyVal.list [PyVal.int (samplePerts.get ⟨i, hi⟩).ipert,
                              PyVal.int (samplePerts.get ⟨i, hi⟩).ipert]) ∧
          ∀ k, k ≠ qptKey → k ≠ rfdirKey → k ≠ rfatpolKey →
            (tasks.get ⟨i, hti⟩).input k = emptyCfg k :=
  phonon_flow_one_task_per_pert emptyCfg 0 samplePerts (by decide)

/-! ## C5 -/

/-- C5: the claim says `all_yaml_docs` returns the empty sequence without
error on a stream containing no document.  The code instead evaluates
`if doc:` after the loop; on a stream with no `---` line the local `doc`
was never assigned, so the reference raises `UnboundLocalError`. -/
theorem all_yaml_docs_unbound_local_on_docless_stream :
    allYamlDocs ["Calculation completed.\n".data] =
      .error .unboundLocalError := rfl

/-! ## C6 -/

/-- C6: on a text whose embedded documents are all well-formed open/close
pairs, when some document contains the tag, the string returned by
`next_doc_with_tag` is an element of the collection `all_yaml_docs`
returns on the same text. -/
theorem next_doc_with_tag_mem_all_docs (s : List Line)
    (ds : List (List Line)) (d0 : List Line) (tag : Line)
    (hwf : WFDocs s ds) (hmem : d0 ∈ ds)
    (htag : pyIn tag (joinL d0) = true) :
    ∃ docs d, allYamlDocs s = .ok docs ∧ nextDocWithTag tag s = .ok d ∧
      d ∈ docs := by
  have hne : ds ≠ [] := fun hh => by
    rw [hh] at hmem
    simp at hmem
  have hdocs := allYamlDocs_wf hwf hne
  have hsome : (ds.find? (fun d => pyIn tag (joinL d))).isSome := by
    rw [List.find?_isSome]
    exact ⟨d0, hmem, htag⟩
  obtain ⟨df, hdf⟩ := Option.isSome_iff_exists.mp hsome
  have hnd : nextDocWithTag tag s = .ok (joinL df) := by
    rw [nextDocWithTag,
      ndwtAux_wf hwf (Nat.lt_succ_of_le (Nat.le_refl _)), hdf]
    rfl
  exact ⟨ds.map joinL, joinL df, hdocs, hnd,
    List.mem_map.mpr ⟨df, List.mem_of_find?_eq_some hdf, rfl⟩⟩

/-- C6 witness: the theorem evaluated on a one-document text tagged
with `!T`. -/
theorem next_doc_with_tag_mem_all_docs_witness :
    ∃ docs d,
      allYamlDocs ["--- !T\n".data, "a: 1\n".data, "...\n".data] = .ok docs ∧
      nextDocWithTag "!T".data
        ["--- !T\n".data, "a: 1\n".data, "...\n".data] = .ok d ∧
      d ∈ docs :=
  next_doc_with_tag_mem_all_docs _
    [["--- !T\n".data, "a: 1\n".data, "...\n".data]]
    ["--- !T\n".data, "a: 1\n".data, "...\n".data] "!T".data
    (@WFDocs.doc ("--- !T\n".data) ["a: 1\n".data] ("...\n".data) [] []
      (by decide) (by decide) (by decide) WFDocs.nil)
    (by simp) (by decide)

/-! ## C7 -/

/-- C7 counterexample: the claim says `on_all_ok` early-returns when the
graph is already finalized, so the mrgscr merge runs at most once.  On an
already-finalized state the method nevertheless performs the merge (the
first component counts merge invocations of this call): the method never
consults the flag. -/
theorem on_all_ok_merges_after_finalized_counterexample :
    (onAllOk { scrFiles := [some "out_SCR".data], finalized := true }).1 = 1 ∧
    (onAllOk { scrFiles := [some "out_SCR".data], finalized := true }).2 =
      .ok { returncode := 0, message := "mrgscr done".data,
            finalScr := PyVal.none } :=
  ⟨rfl, rfl⟩

/-- C7 amended: `QptdmWorkflow.on_all_ok` contains no finalized check:
every invocation on a state whose tasks all have an SCR file runs the
mrgscr merge once more, whatever the value of the finalized flag;
at-most-once invocation is guaranteed only by the external Flow dispatch,
not by this implementation. -/
theorem on_all_ok_no_finalized_guard (st : QptdmState)
    (h : ∀ f ∈ st.scrFiles, f.isSome = true) :
    onAllOk st = (1, .ok { returncode := 0, message := "mrgscr done".data,
                           finalScr := PyVal.none }) := by
  have hm : mergeScrfiles st = .ok (st.scrFiles.filterMap id) := by
    simp [mergeScrfiles, filterMap_id_length st.scrFiles h]
  simp [onAllOk, hm]

/-- C7 witness: the amended statement evaluated on a one-task state. -/
theorem on_all_ok_no_finalized_guard_witness :
    onAllOk { scrFiles := [some "o_SCR".data], finalized := false } =
      (1, .ok { returncode := 0, message := "mrgscr done".data,
                finalScr := PyVal.none }) :=
  on_all_ok_no_finalized_guard _ (by decide)

/-! ## C8 -/

/-- C8: the claim says that with a probe log whose tagged section holds an
empty q-point list, `fill` completes with zero tasks.  The code instead
raises `TypeError` before parsing anything: the keyword `tag` passed to
`yaml_read_kpoints` is not one of its parameters, so `fill` never
completes on any probe log, including this one. -/
theorem fill_zero_qpoints_still_raises :
    (fill { tasks := [] } (fun _ => Option.none)
        ["--- !Qptdms\n".data,
         "reduced_coordinates_of_qpoints: []\n".data,
         "...\n".data]).2 = .error .typeError := by
  have hne : ¬("tag".data ∈ yamlReadKpointsParams) := by decide
  simp [fill, hne]

/-! ## C9 -/

/-- C9 counterexample: on a probe log with no `!Kpoints`-tagged document,
`yaml_read_kpoints` fails with `TypeError` (subscripting the `None`
obtained from loading the empty document), not with the spec-named error
kind `MalformedProbeOutput`, which the code never constructs; and on a
matched `!Kpoints`-tagged section holding an empty q-point list it does
not return zero sub-problems: `yaml.load` raises `ConstructorError` for
the unregistered application tag. -/
theorem yaml_read_kpoints_no_malformed_probe_output_counterexample :
    (yamlReadKpoints ["screening probe output\n".data] kpointsTag =
        .error .typeError ∧
      yamlReadKpoints ["screening probe output\n".data] kpointsTag ≠
        .error .malformedProbeOutput) ∧
    yamlReadKpoints ["--- !Kpoints\n".data,
      "reduced_coordinates_of_qpoints: []\n".data, "...\n".data] kpointsTag =
      .error .constructorError := by
  have h1 : yamlReadKpoints ["screening probe output\n".data] kpointsTag =
      .error .typeError := rfl
  refine ⟨⟨h1, ?_⟩, rfl⟩
  rw [h1]
  intro h
  exact absurd (Except.error.inj h) (by decide)

/-- C9 amended: a probe log containing no document with the expected tag
makes `yaml_read_kpoints` fail — with a `TypeError` from subscripting the
`None` produced by loading the empty document, `MalformedProbeOutput`
existing nowhere in the code — rather than return an empty sub-problem
list; and the comparison case also fails rather than returning zero
sub-problems: on a matched `!Kpoints`-tagged section, empty list or not,
`yaml.load` raises `ConstructorError` because no constructor is
registered for the application tag.  The two failures carry distinct
exception kinds, but no path returns zero sub-problems. -/
theorem yaml_read_kpoints_missing_vs_empty (log : List Line)
    (h : ∀ d, DocOf log d → pyIn kpointsTag d = false) :
    yamlReadKpoints log kpointsTag = .error .typeError ∧
    yamlReadKpoints ["--- !Kpoints\n".data,
      "reduced_coordinates_of_qpoints: []\n".data, "...\n".data] kpointsTag =
      .error .constructorError := by
  constructor
  · unfold yamlReadKpoints
    rw [nextDocWithTag_no_tag h]
    rfl
  · rfl

/-- C9 witness: the amended statement evaluated on a docless probe log. -/
theorem yaml_read_kpoints_missing_vs_empty_witness :
    yamlReadKpoints ["screening run did not emit q-points\n".data] kpointsTag =
      .error .typeError ∧
    yamlReadKpoints ["--- !Kpoints\n".data,
      "reduced_coordinates_of_qpoints: []\n".data, "...\n".data] kpointsTag =
      .error .constructorError :=
  yaml_read_kpoints_missing_vs_empty _ (fun d hd => by
    have hn : nextYamlDoc dashes ["screening run did not emit q-points\n".data] =
        .error .stopIteration := rfl
    cases hd with
    | head h2 => rw [hn] at h2; exact Except.noConfusion h2
    | tail h2 hd2 => rw [hn] at h2; exact Except.noConfusion h2)

/-! ## C10 -/

/-- C10: `YamlFileReader.all_docs_with_tag` never returns normally: its
first loop iteration looks up the attribute `next_doc_with`, which the
class does not define (the existing method is `next_doc_with_tag`), so
every call raises an attribute-lookup error before any document is
collected. -/
theorem all_docs_with_tag_always_attribute_error (docTag : Line)
    (stream : List Line) :
    allDocsWithTag docTag stream = .error .attributeError := by
  have hne : ¬("next_doc_with".data ∈ yamlFileReaderAttrs) := by decide
  simp [allDocsWithTag, hne]

end QptdmRuns
